import Mathlib

/-!
Verification of the EOF Stats plugin (src/unnamed/part_000, with src/main.ts an
earlier variant of the same file).  The TypeScript source is shallowly embedded:
strings become `List Char` / `String`, the two JavaScript regex scans of
`calculateStats` become explicit left-to-right scanners with the exact same
match semantics, DOM nodes become a small tree type, and the CodeMirror
state-field update becomes a pure transition function.
-/

namespace EOFStats

/-- JavaScript `\s` character class (the whitespace characters recognised by
the regexes `/https?:\/\/[^\s)\]>]+/`). -/
def isJsWhitespace (c : Char) : Bool :=
  c = ' ' || c = '\t' || c = '\n' || c = '\x0b' || c = '\x0c' || c = '\r' ||
  c.toNat = 0xa0 || c.toNat = 0x1680 ||
  (0x2000 ≤ c.toNat && c.toNat ≤ 0x200a) ||
  c.toNat = 0x2028 || c.toNat = 0x2029 || c.toNat = 0x202f ||
  c.toNat = 0x205f || c.toNat = 0x3000 || c.toNat = 0xfeff

/-- Characters that terminate a URL match: the class `[^\s)\]>]` of
`urlRegex = /https?:\/\/[^\s)\]>]+/g` in `calculateStats` excludes exactly
whitespace, `)`, `]` and `>`. -/
def isUrlStopChar (c : Char) : Bool :=
  isJsWhitespace c || c = ')' || c = ']' || c = '>'

/-- Characters that terminate a wikilink capture: the class `[^\]|#]` of
`wikilinkRegex = /\[\[([^\]|#]+)/g` in `calculateStats`. -/
def isWikiStop (c : Char) : Bool :=
  c = ']' || c = '|' || c = '#'

/-- Index of the first occurrence of `---` in a character list, if any.
This is what the lazy `[\s\S]*?---` part of the frontmatter regex
`/^---[\s\S]*?---\n?/` finds: the lazy quantifier stops at the earliest
position where `---` matches. -/
def findClose : List Char → Option Nat
  | [] => none
  | c :: rest =>
    if "---".data.isPrefixOf (c :: rest) then some 0
    else (findClose rest).map (· + 1)

/-- Drop a single leading newline, the `\n?` at the end of the frontmatter
regex. -/
def dropLeadingNewline : List Char → List Char
  | '\n' :: t => t
  | l => l

/-- Embedding of `content.replace(/^---[\s\S]*?---\n?/, "")` from
`calculateStats` (src/unnamed/part_000 line 68): the regex has no `m` flag, so
`^` anchors at position 0 only; the match is the literal `---`, then the
shortest run of arbitrary characters up to the next literal `---`, then one
optional newline.  If no match, the text is returned unchanged. -/
def stripFrontmatter (l : List Char) : List Char :=
  if "---".data.isPrefixOf l then
    match findClose (l.drop 3) with
    | none => l
    | some j => dropLeadingNewline ((l.drop 3).drop (j + 3))
  else l

/-- Greedy tail of a URL match: `[^\s)\]>]+` takes the longest run of
non-stop characters after the scheme; the `+` requires at least one. -/
def urlTail (scheme rest : List Char) : Option (List Char × List Char) :=
  let body := rest.takeWhile (fun c => !(isUrlStopChar c))
  if body.isEmpty then none else some (scheme ++ body, rest.drop body.length)

/-- Try to match `https?:\/\/[^\s)\]>]+` at the head of `l`; returns the
matched substring and the remaining input after the match.  `https?` prefers
the `s` branch (greedy `?`); the two scheme literals are mutually exclusive
anyway since they differ at the fifth character. -/
def matchUrlAt (l : List Char) : Option (List Char × List Char) :=
  if "https://".data.isPrefixOf l then
    urlTail "https://".data (l.drop 8)
  else if "http://".data.isPrefixOf l then
    urlTail "http://".data (l.drop 7)
  else none

/-- Fuelled global scan for `urlRegex`: like JavaScript `String.match` with
the `g` flag, after a match the scan resumes at the end of the match
(`lastIndex`); after a failed attempt it advances one character.  Each step
consumes at least one input character, so fuel `l.length` never runs out. -/
def urlMatchesF : Nat → List Char → List (List Char)
  | 0, _ => []
  | _, [] => []
  | fuel + 1, c :: rest =>
    match matchUrlAt (c :: rest) with
    | some (m, after) => m :: urlMatchesF fuel after
    | none => urlMatchesF fuel rest

/-- All matches of `urlRegex` over `l`, in order. -/
def urlMatches (l : List Char) : List (List Char) :=
  urlMatchesF l.length l

/-- Try to match `\[\[([^\]|#]+)` at the head of `l`; returns the capture
group (everything between `[[` and the first `]`, `|` or `#`) and the
remaining input after the whole match. -/
def matchWikiAt (l : List Char) : Option (List Char × List Char) :=
  if "[[".data.isPrefixOf l then
    let body := (l.drop 2).takeWhile (fun c => !(isWikiStop c))
    if body.isEmpty then none else some (body, (l.drop 2).drop body.length)
  else none

/-- Fuelled global scan for `wikilinkRegex`, mirroring the
`wikilinkRegex.exec` loop of `calculateStats`. -/
def wikiMatchesF : Nat → List Char → List (List Char)
  | 0, _ => []
  | _, [] => []
  | fuel + 1, c :: rest =>
    match matchWikiAt (c :: rest) with
    | some (m, after) => m :: wikiMatchesF fuel after
    | none => wikiMatchesF fuel rest

/-- All captures of `wikilinkRegex` over `l`, in order. -/
def wikiMatches (l : List Char) : List (List Char) :=
  wikiMatchesF l.length l

/-- The `FileStats` interface: number of unique URLs and unique internal
links. -/
structure FileStats where
  urls : Nat
  links : Nat
deriving DecidableEq

/-- Embedding of `calculateStats` (src/unnamed/part_000 lines 66-86):
strip the frontmatter, collect the URL matches and the wikilink captures
into sets (`new Set(...)`) and return the set sizes.  `List.dedup` length
equals the number of distinct elements, which is the JavaScript `Set.size`. -/
def calculateStats (content : String) : FileStats :=
  let rest := stripFrontmatter content.data
  { urls := (urlMatches rest).dedup.length
    links := (wikiMatches rest).dedup.length }

/-- Decimal digits of a natural number, most significant first, with fuel
(the recursion divides by 10, so fuel `n + 1` is always enough). -/
def natDigitsF : Nat → Nat → List Char
  | 0, _ => []
  | fuel + 1, n =>
    if n < 10 then [Nat.digitChar n]
    else natDigitsF fuel (n / 10) ++ [Nat.digitChar (n % 10)]

/-- Decimal digit string of a natural number. -/
def natDigits (n : Nat) : List Char :=
  natDigitsF (n + 1) n

/-- Insert a `,` after every three characters; the input is the reversed
digit list, so this produces (once reversed back) thousands grouping. -/
def commaGroup : List Char → List Char
  | a :: b :: c :: d :: rest => a :: b :: c :: ',' :: commaGroup (d :: rest)
  | l => l

/-- Embedding of `formatNumber` (src/unnamed/part_000 lines 93-95):
`num.toLocaleString()` under an en-US style locale, i.e. decimal digits with
`,` thousands separators (`12000 ↦ "12,000"`), as the spec's example shows. -/
def formatNumber (n : Nat) : String :=
  String.mk ((commaGroup (natDigits n).reverse).reverse)

/-- The `EOFStatsSettings` interface. -/
structure EOFStatsSettings where
  showUrls : Bool
  showLinks : Bool
  statsColor : String
  lineColor : String
  eofColor : String
deriving DecidableEq

/-- `DEFAULT_SETTINGS` from the source. -/
def DEFAULT_SETTINGS : EOFStatsSettings :=
  { showUrls := true
    showLinks := true
    statsColor := "#999999"
    lineColor := "#999999"
    eofColor := "#999999" }

/-- JavaScript `Array.prototype.join(" | ")`. -/
def joinParts : List String → String
  | [] => ""
  | [p] => p
  | p :: rest => p ++ " | " ++ joinParts rest

/-- Embedding of `buildStatsString` (src/unnamed/part_000 lines 100-111):
push the URL segment if `showUrls`, then the link segment if `showLinks`,
and join with `" | "`. -/
def buildStatsString (stats : FileStats) (settings : EOFStatsSettings) : String :=
  joinParts
    ((if settings.showUrls then ["URLs: " ++ formatNumber stats.urls] else []) ++
     (if settings.showLinks then ["Links: " ++ formatNumber stats.links] else []))

/-- A platform-neutral DOM node: class name, inline styles, text content and
children. -/
inductive Elem where
  | node (cls : String) (styles : List (String × String)) (text : String)
      (children : List Elem)

/-- Embedding of `createEOFStatsElement` (src/unnamed/part_000 lines
116-142): a container holding the stats line (only when the formatted string
is non-empty, the JavaScript truthiness test `if (statsString)`) followed by
the EOF indicator (rule, `EOF` label, rule). -/
def createEOFStatsElement (stats : FileStats) (settings : EOFStatsSettings) : Elem :=
  let statsString := buildStatsString stats settings
  Elem.node "eof-stats-container" [] ""
    ((if statsString.isEmpty then [] else
       [Elem.node "eof-stats-line" [("color", settings.statsColor)] statsString []]) ++
     [Elem.node "eof-indicator" [] ""
       [Elem.node "eof-line-horizontal" [("border-color", settings.lineColor)] "" [],
        Elem.node "eof-text" [("color", settings.eofColor)] "EOF" [],
        Elem.node "eof-line-horizontal" [("border-color", settings.lineColor)] "" []]])

/-- The `EOFStatsWidget` payload: the stats and the settings values it was
built from. -/
structure EOFStatsWidget where
  stats : FileStats
  settings : EOFStatsSettings

/-- A CodeMirror widget decoration: anchor position plus widget.  The
decoration set built by `buildEOFDecoration` always holds exactly one such
decoration, so the set is modelled by a single item. -/
structure DecorationItem where
  pos : Nat
  widget : EOFStatsWidget

/-- Embedding of `buildEOFDecoration` (src/unnamed/part_000 lines 188-199):
compute stats over the content and anchor a widget at `content.length`
(the end of the document).  The `{ ...settings }` copy of the source is the
identity on immutable values here; `buildEOFDecorationH` below models the
object graph explicitly. -/
def buildEOFDecoration (content : String) (settings : EOFStatsSettings) :
    DecorationItem :=
  { pos := content.length
    widget := { stats := calculateStats content, settings := settings } }

/-- A CodeMirror transaction, as consumed by the state field's `update`:
whether the document changed, the new document text, and the position
mapping (`tr.changes`) for remapping decorations. -/
structure TransactionM where
  docChanged : Bool
  newDoc : String
  mapPos : Nat → Nat

/-- Embedding of the `update` function of the state field built by
`createEOFStatsField` (src/unnamed/part_000 lines 212-217): if the document
did not change, only remap the existing decoration through `tr.changes`;
otherwise rebuild the decoration over the new full text. -/
def eofStatsFieldUpdate (decorations : DecorationItem) (tr : TransactionM)
    (settings : EOFStatsSettings) : DecorationItem :=
  if !tr.docChanged then
    { pos := tr.mapPos decorations.pos, widget := decorations.widget }
  else
    buildEOFDecoration tr.newDoc settings

/-- The `create` function of the same state field (lines 209-211). -/
def eofStatsFieldCreate (doc : String) (settings : EOFStatsSettings) :
    DecorationItem :=
  buildEOFDecoration doc settings

/-- JavaScript `content.split("\n")`: split at every newline, keeping empty
fields (`"".split` gives one empty field). -/
def splitNl : List Char → List (List Char)
  | [] => [[]]
  | '\n' :: rest => [] :: splitNl rest
  | c :: rest =>
    match splitNl rest with
    | [] => [[c]]
    | g :: gs => (c :: g) :: gs

/-- The part of `MarkdownSectionInformation` the adapter reads. -/
structure SectionInfo where
  lineStart : Nat
  lineEnd : Nat

/-- Embedding of `addEOFToReadingView` (src/unnamed/part_000 lines 394-411).
`sectionInfo` is `ctx.getSectionInfo(el)`; `file` is the result of
`getAbstractFileByPath` (with the `TFile` check); `readResult` is the
outcome of `cachedRead` — `Except.error` is a rejected promise, swallowed by
the `.catch(() => {})` handler.  The result is the fragment's child list:
the footer is appended exactly when every lookup succeeds and the
fragment's `lineEnd` reaches the last line index of the freshly read
content. -/
def addEOFToReadingView (children : List Elem) (sectionInfo : Option SectionInfo)
    (file : Option Unit) (readResult : Except Unit String)
    (settings : EOFStatsSettings) : List Elem :=
  match sectionInfo with
  | none => children
  | some si =>
    match file with
    | none => children
    | some _ =>
      match readResult with
      | Except.error _ => children
      | Except.ok content =>
        if (splitNl content.data).length - 1 ≤ si.lineEnd then
          children ++ [createEOFStatsElement (calculateStats content) settings]
        else
          children

/-- A heap of JavaScript settings objects: addresses below `next` are
allocated.  Used to model reference sharing vs. the `{ ...settings }` copy. -/
structure JSHeap where
  mem : Nat → EOFStatsSettings
  next : Nat

/-- Dereference an address. -/
def JSHeap.read (h : JSHeap) (a : Nat) : EOFStatsSettings :=
  h.mem a

/-- Allocate a fresh object holding `s`. -/
def JSHeap.alloc (h : JSHeap) (s : EOFStatsSettings) : JSHeap × Nat :=
  ({ mem := fun x => if x = h.next then s else h.mem x, next := h.next + 1 },
   h.next)

/-- In-place mutation of the object at address `a` (what the settings UI
does to the shared `plugin.settings` record). -/
def JSHeap.write (h : JSHeap) (a : Nat) (s : EOFStatsSettings) : JSHeap :=
  { h with mem := fun x => if x = a then s else h.mem x }

/-- A widget whose settings are held by reference into the heap. -/
structure WidgetH where
  stats : FileStats
  settingsAddr : Nat

/-- A decoration over heap-allocated widgets. -/
structure DecorationH where
  pos : Nat
  widget : WidgetH

/-- Heap-explicit embedding of `buildEOFDecoration` (src/unnamed/part_000
lines 188-199): `const settingsCopy = { ...settings }` allocates a fresh
object whose fields are the current values of the shared record, and the
widget stores a reference to that fresh object, not to the shared one. -/
def buildEOFDecorationH (h : JSHeap) (content : String) (settingsAddr : Nat) :
    JSHeap × DecorationH :=
  let stats := calculateStats content
  let alloc := h.alloc (h.read settingsAddr)
  (alloc.1,
   { pos := content.length
     widget := { stats := stats, settingsAddr := alloc.2 } })

/-- Embedding of `EOFStatsWidget.eq` (src/unnamed/part_000 lines 169-179):
field-by-field comparison of the two stats counts and the five settings
fields, each widget's settings read through its own reference. -/
def WidgetH.eq (h : JSHeap) (w other : WidgetH) : Bool :=
  let s := h.read w.settingsAddr
  let o := h.read other.settingsAddr
  w.stats.urls == other.stats.urls &&
  w.stats.links == other.stats.links &&
  s.showUrls == o.showUrls &&
  s.showLinks == o.showLinks &&
  s.statsColor == o.statsColor &&
  s.lineColor == o.lineColor &&
  s.eofColor == o.eofColor

/-- A non-empty run of non-stop characters: the `[^\s)\]>]+` body of a URL
match. -/
def validUrlBody (b : List Char) : Bool :=
  !b.isEmpty && b.all (fun c => !(isUrlStopChar c))

/-- Shape of a URL match: a scheme literal followed by a valid body. -/
def urlShape (m : List Char) : Bool :=
  ("https://".data.isPrefixOf m && validUrlBody (m.drop 8)) ||
  ("http://".data.isPrefixOf m && validUrlBody (m.drop 7))

/-- Whether `pat` occurs as a contiguous substring of `l`. -/
def containsSub (pat : List Char) : List Char → Bool
  | [] => pat.isPrefixOf []
  | c :: rest => pat.isPrefixOf (c :: rest) || containsSub pat rest

/-- The end-to-end scenario 1 input text of the spec. -/
def scenario1 : String :=
  "---\ntitle: Test\n---\nSee https://a.example/x and https://a.example/x again.\nAlso [[Note A]] and [[Note A|alias]] and [[Note B]].\n"

/-- Concrete decoration used to instantiate the state-field theorems. -/
def d0Item : DecorationItem :=
  { pos := 5, widget := { stats := { urls := 0, links := 0 }, settings := DEFAULT_SETTINGS } }

/-- A concrete non-text-changing transaction (cursor movement). -/
def trStatic : TransactionM :=
  { docChanged := false, newDoc := "xy", mapPos := fun p => p + 2 }

/-- A concrete text-changing transaction. -/
def trEdit : TransactionM :=
  { docChanged := true, newDoc := "new http://doc", mapPos := id }

/-- Section metadata whose `lineEnd` reaches the last line of `"a\nb"`. -/
def siLast : SectionInfo := { lineStart := 0, lineEnd := 1 }

/-- Section metadata ending before the last line of `"a\nb"`. -/
def siEarly : SectionInfo := { lineStart := 0, lineEnd := 0 }

/-- A one-object heap holding the default settings at address 0. -/
def h0Heap : JSHeap := { mem := fun _ => DEFAULT_SETTINGS, next := 1 }

/-- A distinct settings record, used as the mutated value. -/
def altSettings : EOFStatsSettings :=
  { showUrls := false, showLinks := true, statsColor := "#fff"
    lineColor := "#000", eofColor := "#111" }

lemma findClose_eq_none_of (l : List Char)
    (h : ∀ i, ¬ ("---".data <+: l.drop i)) : findClose l = none := by
  induction l with
  | nil => rfl
  | cons c rest ih =>
    have h0 : ¬ ("---".data <+: (c :: rest)) := by simpa using h 0
    have hb : "---".data.isPrefixOf (c :: rest) = false :=
      Bool.eq_false_iff.mpr (fun hx => h0 (List.isPrefixOf_iff_prefix.mp hx))
    have hrest : findClose rest = none := by
      apply ih
      intro i
      simpa [List.drop_succ_cons] using h (i + 1)
    simp [findClose, hb, hrest]

lemma findClose_eq_some_of (l : List Char) : ∀ (j : Nat),
    ("---".data <+: l.drop j) → (∀ i, i < j → ¬ ("---".data <+: l.drop i)) →
    findClose l = some j := by
  induction l with
  | nil =>
    intro j hj _
    exfalso
    have := hj.length_le
    simp at this
  | cons c rest ih =>
    intro j hj hmin
    cases j with
    | zero =>
      have hb : "---".data.isPrefixOf (c :: rest) = true :=
        List.isPrefixOf_iff_prefix.mpr (by simpa using hj)
      simp [findClose, hb]
    | succ j' =>
      have h0 : ¬ ("---".data <+: (c :: rest)) := by
        simpa using hmin 0 (Nat.succ_pos _)
      have hb : "---".data.isPrefixOf (c :: rest) = false :=
        Bool.eq_false_iff.mpr (fun hx => h0 (List.isPrefixOf_iff_prefix.mp hx))
      have hrec : findClose rest = some j' := by
        apply ih
        · simpa [List.drop_succ_cons] using hj
        · intro i hi
          simpa [List.drop_succ_cons] using hmin (i + 1) (Nat.succ_lt_succ hi)
      simp [findClose, hb, hrec]

lemma urlTail_shape {scheme rest m after : List Char}
    (h : urlTail scheme rest = some (m, after)) :
    ∃ body : List Char, body.isEmpty = false ∧
      (∀ c ∈ body, isUrlStopChar c = false) ∧ m = scheme ++ body := by
  unfold urlTail at h
  cases hb : (rest.takeWhile (fun c => !(isUrlStopChar c))).isEmpty with
  | true => simp [hb] at h
  | false =>
    simp [hb] at h
    refine ⟨rest.takeWhile (fun c => !(isUrlStopChar c)), hb, ?_, h.1.symm⟩
    intro c hc
    simpa using List.mem_takeWhile_imp hc

lemma matchUrlAt_shape {l m after : List Char}
    (h : matchUrlAt l = some (m, after)) : urlShape m = true := by
  unfold matchUrlAt at h
  by_cases h8 : "https://".data.isPrefixOf l
  · rw [if_pos h8] at h
    obtain ⟨body, hne, hstop, hm⟩ := urlTail_shape h
    subst hm
    have hpre : "https://".data.isPrefixOf ("https://".data ++ body) = true :=
      List.isPrefixOf_iff_prefix.mpr (List.prefix_append _ _)
    have hdrop : ("https://".data ++ body).drop 8 = body :=
      @List.drop_left' Char "https://".data body 8 rfl
    simp [urlShape, hpre, hdrop, validUrlBody, hne, List.all_eq_true]
    exact hstop
  · rw [if_neg h8] at h
    by_cases h7 : "http://".data.isPrefixOf l
    · rw [if_pos h7] at h
      obtain ⟨body, hne, hstop, hm⟩ := urlTail_shape h
      subst hm
      have hpre : "http://".data.isPrefixOf ("http://".data ++ body) = true :=
        List.isPrefixOf_iff_prefix.mpr (List.prefix_append _ _)
      have hdrop : ("http://".data ++ body).drop 7 = body :=
        @List.drop_left' Char "http://".data body 7 rfl
      simp [urlShape, hpre, hdrop, validUrlBody, hne, List.all_eq_true]
      exact hstop
    · rw [if_neg h7] at h
      exact absurd h (by simp)

lemma urlMatchesF_shape : ∀ (fuel : Nat) (l : List Char),
    (urlMatchesF fuel l).all urlShape = true := by
  intro fuel
  induction fuel with
  | zero => intro l; simp [urlMatchesF]
  | succ n ih =>
    intro l
    cases l with
    | nil => simp [urlMatchesF]
    | cons c rest =>
      cases hm : matchUrlAt (c :: rest) with
      | none => simpa [urlMatchesF, hm] using ih rest
      | some pr =>
        obtain ⟨m, after⟩ := pr
        simp [urlMatchesF, hm, matchUrlAt_shape hm, ih after]

lemma matchWikiAt_ne {l m after : List Char}
    (h : matchWikiAt l = some (m, after)) : m.isEmpty = false := by
  unfold matchWikiAt at h
  by_cases h2 : "[[".data.isPrefixOf l
  · rw [if_pos h2] at h
    cases hb : ((l.drop 2).takeWhile (fun c => !(isWikiStop c))).isEmpty with
    | true => simp [hb] at h
    | false =>
      simp [hb] at h
      rw [← h.1]
      exact hb
  · rw [if_neg h2] at h
    exact absurd h (by simp)

lemma wikiMatchesF_ne : ∀ (fuel : Nat) (l : List Char),
    (wikiMatchesF fuel l).all (fun m => !m.isEmpty) = true := by
  intro fuel
  induction fuel with
  | zero => intro l; simp [wikiMatchesF]
  | succ n ih =>
    intro l
    cases l with
    | nil => simp [wikiMatchesF]
    | cons c rest =>
      cases hm : matchWikiAt (c :: rest) with
      | none => simpa [wikiMatchesF, hm] using ih rest
      | some pr =>
        obtain ⟨m, after⟩ := pr
        simp [wikiMatchesF, hm, matchWikiAt_ne hm, ih after]

lemma digitChar_isDigit {m : Nat} (h : m < 10) :
    (Nat.digitChar m).isDigit = true := by
  interval_cases m <;> decide

lemma natDigitsF_isDigit : ∀ (fuel n : Nat) (c : Char),
    c ∈ natDigitsF fuel n → c.isDigit = true := by
  intro fuel
  induction fuel with
  | zero => intro n c h; simp [natDigitsF] at h
  | succ k ih =>
    intro n c h
    rw [natDigitsF] at h
    by_cases hn : n < 10
    · rw [if_pos hn] at h
      simp at h
      subst h
      exact digitChar_isDigit hn
    · rw [if_neg hn] at h
      rcases List.mem_append.mp h with h1 | h2
      · exact ih _ _ h1
      · simp at h2
        subst h2
        exact digitChar_isDigit (Nat.mod_lt _ (by decide))

lemma commaGroup_mem : ∀ (l : List Char) (x : Char),
    x ∈ commaGroup l → x ∈ l ∨ x = ',' := by
  intro l
  induction l using commaGroup.induct with
  | case1 a b c d rest ih =>
    intro x hx
    rw [commaGroup] at hx
    simp only [List.mem_cons] at hx ⊢
    rcases hx with h | h | h | h | h
    · exact Or.inl (Or.inl h)
    · exact Or.inl (Or.inr (Or.inl h))
    · exact Or.inl (Or.inr (Or.inr (Or.inl h)))
    · exact Or.inr h
    · rcases ih x h with hm | hc
      · simp only [List.mem_cons] at hm
        rcases hm with hm | hm
        · exact Or.inl (Or.inr (Or.inr (Or.inr (Or.inl hm))))
        · exact Or.inl (Or.inr (Or.inr (Or.inr (Or.inr hm))))
      · exact Or.inr hc
  | case2 l h =>
    intro x hx
    rw [commaGroup] at hx
    · exact Or.inl hx
    · exact h

lemma formatNumber_chars (n : Nat) (c : Char) (h : c ∈ (formatNumber n).data) :
    c.isDigit = true ∨ c = ',' := by
  unfold formatNumber at h
  have h1 : c ∈ commaGroup (natDigits n).reverse := by
    simpa [List.mem_reverse] using h
  rcases commaGroup_mem _ _ h1 with h2 | h2
  · exact Or.inl (natDigitsF_isDigit _ _ _ (List.mem_reverse.mp h2))
  · exact Or.inr h2

lemma containsSub_subset (pat : List Char) : ∀ (l : List Char),
    containsSub pat l = true → ∀ c ∈ pat, c ∈ l := by
  intro l
  induction l with
  | nil =>
    intro h c hc
    rw [containsSub] at h
    have hnil := List.prefix_nil.mp (List.isPrefixOf_iff_prefix.mp h)
    subst hnil
    simp at hc
  | cons a rest ih =>
    intro h c hc
    rw [containsSub] at h
    have h' : pat.isPrefixOf (a :: rest) = true ∨ containsSub pat rest = true := by
      simpa using h
    rcases h' with h1 | h2
    · exact (List.isPrefixOf_iff_prefix.mp h1).subset hc
    · exact List.mem_cons_of_mem _ (ih h2 c hc)

lemma containsSub_false_of_not_mem {pat l : List Char} (c : Char)
    (hc : c ∈ pat) (hl : c ∉ l) : containsSub pat l = false := by
  cases h : containsSub pat l with
  | false => rfl
  | true => exact absurd (containsSub_subset pat l h c hc) hl

lemma pipe_not_mem_segment (lbl : String) (hlbl : '|' ∉ lbl.data) (n : Nat) :
    '|' ∉ (lbl ++ formatNumber n).data := by
  rw [String.data_append]
  intro hmem
  rcases List.mem_append.mp hmem with h | h
  · exact hlbl h
  · rcases formatNumber_chars n _ h with hd | hc
    · exact absurd hd (by decide)
    · exact absurd hc (by decide)

/-- Claim C1, counterexample.  The input `"--- http://u ---\nhttp://v"` does
not begin with a line containing only `---` (its first line is
`"--- http://u ---"`), so by the claim the whole text should be scanned and
both distinct URLs counted (the full scan finds 2 of them); but
`calculateStats` strips everything up to the mid-line `---` and reports only
1 URL. -/
theorem c1_strip_counterexample :
    ("---\n".data.isPrefixOf "--- http://u ---\nhttp://v".data) = false ∧
    "--- http://u ---\nhttp://v" ≠ "---" ∧
    ((urlMatches "--- http://u ---\nhttp://v".data).toFinset).card = 2 ∧
    (calculateStats "--- http://u ---\nhttp://v").urls = 1 := by
  decide

/-- Claim C1, amended.  `calculateStats` strips a leading region matching
`---`, then the shortest run of arbitrary characters up to the next `---`,
then at most one newline — anchored at position 0 and WITHOUT requiring the
delimiters to be lines of their own; when the text does not start with
`---`, or no second `---` occurs, the text is scanned unmodified; the URL
and reference scans run over exactly the remainder. -/
theorem c1_strip_amended (text : List Char) :
    (¬ ("---".data <+: text) → stripFrontmatter text = text) ∧
    (∀ rest, text = "---".data ++ rest →
      ((∀ i, ¬ ("---".data <+: rest.drop i)) → stripFrontmatter text = text) ∧
      (∀ j, ("---".data <+: rest.drop j) →
        (∀ i, i < j → ¬ ("---".data <+: rest.drop i)) →
        stripFrontmatter text = dropLeadingNewline (rest.drop (j + 3)))) ∧
    (calculateStats (String.mk text)).urls
      = (urlMatches (stripFrontmatter text)).dedup.length ∧
    (calculateStats (String.mk text)).links
      = (wikiMatches (stripFrontmatter text)).dedup.length := by
  refine ⟨?_, ?_, rfl, rfl⟩
  · intro h
    have hb : "---".data.isPrefixOf text = false :=
      Bool.eq_false_iff.mpr (fun hx => h (List.isPrefixOf_iff_prefix.mp hx))
    simp [stripFrontmatter, hb]
  · intro rest hrest
    subst hrest
    have hb : "---".data.isPrefixOf ("---".data ++ rest) = true :=
      List.isPrefixOf_iff_prefix.mpr (List.prefix_append _ _)
    have hdrop : ("---".data ++ rest).drop 3 = rest :=
      @List.drop_left' Char "---".data rest 3 rfl
    constructor
    · intro hnone
      have hfc := findClose_eq_none_of rest hnone
      simp [stripFrontmatter, hb, hdrop, hfc]
    · intro j hj hmin
      have hfc := findClose_eq_some_of rest j hj hmin
      simp [stripFrontmatter, hb, hdrop, hfc]

/-- Witness for `c1_strip_amended`: the three strip cases at concrete
inputs — no leading `---`; a leading `---` with no closing `---`; and a
closing `---` in the middle of a line followed by a newline. -/
theorem c1_strip_amended_witness :
    stripFrontmatter "abc".data = "abc".data ∧
    stripFrontmatter "---x".data = "---x".data ∧
    stripFrontmatter "---a---\nrest".data = "rest".data := by
  refine ⟨(c1_strip_amended "abc".data).1 (by decide), ?_, ?_⟩
  · have h := (((c1_strip_amended "---x".data).2.1) "x".data (by decide)).1
    apply h
    intro i hpre
    have h3 := hpre.length_le
    rw [List.length_drop] at h3
    have hx : ("x".data).length = 1 := rfl
    have h33 : ("---".data).length = 3 := rfl
    omega
  · have h := (((c1_strip_amended "---a---\nrest".data).2.1) "a---\nrest".data
      (by decide)).2 1 (by decide) ?hmin
    · rw [h]; decide
    case hmin =>
      intro i hi
      interval_cases i
      decide

/-- Claim C2: on the spec's end-to-end scenario 1 text, `calculateStats`
returns 1 URL and 2 links, the unique references are `Note A` and `Note B`,
and the formatter with both toggles on (the defaults) renders exactly
`"URLs: 1 | Links: 2"`. -/
theorem c2_scenario1 :
    (calculateStats scenario1).urls = 1 ∧
    (calculateStats scenario1).links = 2 ∧
    (wikiMatches (stripFrontmatter scenario1.data)).toFinset
      = {"Note A".data, "Note B".data} ∧
    DEFAULT_SETTINGS.showUrls = true ∧ DEFAULT_SETTINGS.showLinks = true ∧
    buildStatsString (calculateStats scenario1) DEFAULT_SETTINGS
      = "URLs: 1 | Links: 2" := by
  decide

/-- Claim C3: the URL count is the cardinality of the set of exact matched
substrings of the URL regex over the stripped text (so a byte-identical
duplicate counts once), every such match is a scheme literal followed by a
non-empty run of non-stop characters, and syntactically different matches —
`http://x` vs `http://x/`, or matches differing only in case — count
separately. -/
theorem c3_url_set_semantics :
    (∀ text : String,
      (calculateStats text).urls
        = ((urlMatches (stripFrontmatter text.data)).toFinset).card) ∧
    (∀ l : List Char, (urlMatches l).all urlShape = true) ∧
    (calculateStats "See http://x then http://x again").urls = 1 ∧
    (calculateStats "See http://x then http://x/ after").urls = 2 ∧
    (calculateStats "See http://x then http://X after").urls = 2 := by
  refine ⟨fun text => ?_, fun l => urlMatchesF_shape _ _, by decide, by decide,
    by decide⟩
  simp [calculateStats, List.card_toFinset]

/-- Claim C4: the link count is the cardinality of the set of wikilink
captures over the stripped text, and `[[Page|Alias]]`, `[[Page#Section]]`
and `[[Page]]` in one document collapse to the single set entry `Page`. -/
theorem c4_link_set_semantics :
    (∀ text : String,
      (calculateStats text).links
        = ((wikiMatches (stripFrontmatter text.data)).toFinset).card) ∧
    (wikiMatches "[[Page|Alias]] and [[Page#Section]] and [[Page]]".data).toFinset
      = {"Page".data} ∧
    (calculateStats "[[Page|Alias]] and [[Page#Section]] and [[Page]]").links
      = 1 := by
  refine ⟨fun text => ?_, by decide, by decide⟩
  simp [calculateStats, List.card_toFinset]

/-- Claim C5: with both toggles off the formatter returns the empty string;
with exactly one toggle on the output is the single segment and contains no
`" | "` substring; segments appear in fixed order, URLs first, joined by
`" | "`. -/
theorem c5_formatter_cases (stats : FileStats) (s : EOFStatsSettings) :
    (s.showUrls = false → s.showLinks = false → buildStatsString stats s = "") ∧
    (s.showUrls = true → s.showLinks = false →
      buildStatsString stats s = "URLs: " ++ formatNumber stats.urls ∧
      containsSub " | ".data (buildStatsString stats s).data = false) ∧
    (s.showUrls = false → s.showLinks = true →
      buildStatsString stats s = "Links: " ++ formatNumber stats.links ∧
      containsSub " | ".data (buildStatsString stats s).data = false) ∧
    (s.showUrls = true → s.showLinks = true →
      buildStatsString stats s
        = ("URLs: " ++ formatNumber stats.urls) ++ " | "
            ++ ("Links: " ++ formatNumber stats.links)) := by
  refine ⟨?_, ?_, ?_, ?_⟩
  · intro hu hl
    simp [buildStatsString, hu, hl, joinParts]
  · intro hu hl
    have heq : buildStatsString stats s = "URLs: " ++ formatNumber stats.urls := by
      simp [buildStatsString, hu, hl, joinParts]
    refine ⟨heq, ?_⟩
    rw [heq]
    exact containsSub_false_of_not_mem '|' (by decide)
      (pipe_not_mem_segment "URLs: " (by decide) _)
  · intro hu hl
    have heq : buildStatsString stats s = "Links: " ++ formatNumber stats.links := by
      simp [buildStatsString, hu, hl, joinParts]
    refine ⟨heq, ?_⟩
    rw [heq]
    exact containsSub_false_of_not_mem '|' (by decide)
      (pipe_not_mem_segment "Links: " (by decide) _)
  · intro hu hl
    simp [buildStatsString, hu, hl, joinParts]

/-- Witness for `c5_formatter_cases` at concrete stats and settings: the
both-off, URLs-only and both-on cases. -/
theorem c5_formatter_cases_witness :
    buildStatsString { urls := 3, links := 4 }
      { showUrls := false, showLinks := false, statsColor := "#999999"
        lineColor := "#999999", eofColor := "#999999" } = "" ∧
    (buildStatsString { urls := 3, links := 4 }
      { showUrls := true, showLinks := false, statsColor := "#999999"
        lineColor := "#999999", eofColor := "#999999" }
        = "URLs: " ++ formatNumber 3 ∧
     containsSub " | ".data (buildStatsString { urls := 3, links := 4 }
      { showUrls := true, showLinks := false, statsColor := "#999999"
        lineColor := "#999999", eofColor := "#999999" }).data = false) ∧
    buildStatsString { urls := 3, links := 4 } DEFAULT_SETTINGS
      = ("URLs: " ++ formatNumber 3) ++ " | " ++ ("Links: " ++ formatNumber 4) :=
  ⟨(c5_formatter_cases { urls := 3, links := 4 }
      { showUrls := false, showLinks := false, statsColor := "#999999"
        lineColor := "#999999", eofColor := "#999999" }).1 rfl rfl,
   (c5_formatter_cases { urls := 3, links := 4 }
      { showUrls := true, showLinks := false, statsColor := "#999999"
        lineColor := "#999999", eofColor := "#999999" }).2.1 rfl rfl,
   (c5_formatter_cases { urls := 3, links := 4 } DEFAULT_SETTINGS).2.2.2 rfl rfl⟩

/-- Claim C6: the state field's update never recomputes on a transaction
that does not change the document — it only remaps the existing
decoration's position through the transaction's change mapping, keeping the
widget object untouched — while a document-changing transaction rebuilds the
decoration over the new full text and anchors it at the new end of
document. -/
theorem c6_live_update (d : DecorationItem) (tr : TransactionM)
    (s : EOFStatsSettings) :
    (tr.docChanged = false →
      eofStatsFieldUpdate d tr s
        = { pos := tr.mapPos d.pos, widget := d.widget }) ∧
    (tr.docChanged = true →
      eofStatsFieldUpdate d tr s = buildEOFDecoration tr.newDoc s ∧
      (eofStatsFieldUpdate d tr s).pos = tr.newDoc.length ∧
      (eofStatsFieldUpdate d tr s).widget.stats = calculateStats tr.newDoc ∧
      (eofStatsFieldUpdate d tr s).widget.settings = s) := by
  constructor
  · intro h
    simp [eofStatsFieldUpdate, h]
  · intro h
    simp [eofStatsFieldUpdate, h, buildEOFDecoration]

/-- Witness for `c6_live_update`: a concrete cursor-move transaction only
remaps the position, and a concrete edit re-anchors at the new document
end. -/
theorem c6_live_update_witness :
    eofStatsFieldUpdate d0Item trStatic DEFAULT_SETTINGS
      = { pos := trStatic.mapPos d0Item.pos, widget := d0Item.widget } ∧
    (eofStatsFieldUpdate d0Item trEdit DEFAULT_SETTINGS).pos
      = trEdit.newDoc.length :=
  ⟨(c6_live_update d0Item trStatic DEFAULT_SETTINGS).1 rfl,
   ((c6_live_update d0Item trEdit DEFAULT_SETTINGS).2 rfl).2.1⟩

/-- Claim C7: with section info present, the file found and the read
successful, the footer is appended exactly when the fragment's `lineEnd`
is at or beyond the last line index of the freshly read content; a fragment
ending earlier is returned untouched. -/
theorem c7_terminal_fragment (children : List Elem) (si : SectionInfo)
    (content : String) (s : EOFStatsSettings) :
    ((splitNl content.data).length - 1 ≤ si.lineEnd →
      addEOFToReadingView children (some si) (some ()) (Except.ok content) s
        = children ++ [createEOFStatsElement (calculateStats content) s]) ∧
    (si.lineEnd < (splitNl content.data).length - 1 →
      addEOFToReadingView children (some si) (some ()) (Except.ok content) s
        = children) := by
  constructor
  · intro h
    simp [addEOFToReadingView, h]
  · intro h
    have hnot : ¬ ((splitNl content.data).length - 1 ≤ si.lineEnd) := by omega
    simp [addEOFToReadingView, hnot]

/-- Witness for `c7_terminal_fragment` on the two-line document `"a\nb"`:
a fragment ending at line 1 receives the footer, a fragment ending at
line 0 does not. -/
theorem c7_terminal_fragment_witness :
    addEOFToReadingView [] (some siLast) (some ()) (Except.ok "a\nb")
        DEFAULT_SETTINGS
      = [] ++ [createEOFStatsElement (calculateStats "a\nb") DEFAULT_SETTINGS] ∧
    addEOFToReadingView [] (some siEarly) (some ()) (Except.ok "a\nb")
        DEFAULT_SETTINGS
      = [] :=
  ⟨(c7_terminal_fragment [] siLast "a\nb" DEFAULT_SETTINGS).1 (by decide),
   (c7_terminal_fragment [] siEarly "a\nb" DEFAULT_SETTINGS).2 (by decide)⟩

/-- Claim C8: when the file cannot be located (`getAbstractFileByPath`
returns nothing) or the read fails (rejected promise, swallowed by the
`.catch` handler), the adapter leaves the fragment's children untouched and
returns normally — no footer, no error. -/
theorem c8_silent_failure (children : List Elem) (si : Option SectionInfo)
    (f : Option Unit) (rr : Except Unit String) (e : Unit)
    (s : EOFStatsSettings) :
    addEOFToReadingView children si none rr s = children ∧
    addEOFToReadingView children si f (Except.error e) s = children := by
  constructor
  · cases si <;> simp [addEOFToReadingView]
  · cases si <;> cases f <;> simp [addEOFToReadingView]

/-- Claim C9: `buildEOFDecoration` allocates a fresh copy of the
configuration object (`{ ...settings }`), so mutating the shared record in
place afterwards does not change what the widget's settings reference holds;
and `EOFStatsWidget.eq` returns true exactly when the two stats counts and
all five settings fields agree — it never compares references. -/
theorem c9_structural_copy (h : JSHeap) (content : String) (a : Nat)
    (s' : EOFStatsSettings) (ha : a < h.next) :
    ((buildEOFDecorationH h content a).1.read
        (buildEOFDecorationH h content a).2.widget.settingsAddr
      = h.read a) ∧
    (((buildEOFDecorationH h content a).1.write a s').read
        (buildEOFDecorationH h content a).2.widget.settingsAddr
      = h.read a) ∧
    (∀ (h2 : JSHeap) (w v : WidgetH),
      WidgetH.eq h2 w v = true ↔
        (w.stats.urls = v.stats.urls ∧ w.stats.links = v.stats.links ∧
         (h2.read w.settingsAddr).showUrls = (h2.read v.settingsAddr).showUrls ∧
         (h2.read w.settingsAddr).showLinks = (h2.read v.settingsAddr).showLinks ∧
         (h2.read w.settingsAddr).statsColor
           = (h2.read v.settingsAddr).statsColor ∧
         (h2.read w.settingsAddr).lineColor = (h2.read v.settingsAddr).lineColor ∧
         (h2.read w.settingsAddr).eofColor
           = (h2.read v.settingsAddr).eofColor)) := by
  have hne : h.next ≠ a := Ne.symm (Nat.ne_of_lt ha)
  refine ⟨?_, ?_, ?_⟩
  · simp [buildEOFDecorationH, JSHeap.read, JSHeap.alloc]
  · simp [buildEOFDecorationH, JSHeap.read, JSHeap.alloc, JSHeap.write, hne]
  · intro h2 w v
    simp [WidgetH.eq, JSHeap.read, Bool.and_eq_true, and_assoc]

/-- Witness for `c9_structural_copy`: in a one-object heap, mutating the
shared settings at address 0 after building the decoration leaves the
widget's copied settings equal to the original record. -/
theorem c9_structural_copy_witness :
    ((buildEOFDecorationH h0Heap "doc" 0).1.write 0 altSettings).read
        (buildEOFDecorationH h0Heap "doc" 0).2.widget.settingsAddr
      = h0Heap.read 0 :=
  (c9_structural_copy h0Heap "doc" 0 altSettings (by decide)).2.1

/-- Claim C10: every wikilink capture is non-empty — the `+` in
`\[\[([^\]|#]+)` requires at least one character between `[[` and the first
`]`, `|` or `#` — so `[[]]`, `[[|Alias]]` and `[[#Section]]` produce no set
entry at all and contribute nothing to the link count. -/
theorem c10_empty_targets :
    (∀ text : String,
      (wikiMatches (stripFrontmatter text.data)).all (fun m => !m.isEmpty)
        = true) ∧
    (calculateStats "x [[]] y [[|Alias]] z [[#Section]] w").links = 0 :=
  ⟨fun _ => wikiMatchesF_ne _ _, by decide⟩

end EOFStats
